import Mathlib

/-!
# Verification of the metgo tiered-cache retrieval engine

Shallow embedding of the Go sources `metgo.go`, `metgo_cache.go` and
`metgo_types.go` of the `Roemer/metgo` repository, together with proofs
about the claims of the specification.

Modelling conventions:
* `time.Time` is embedded as an `Int` instant (nanoseconds since an epoch);
  Go's zero time is `0`, `a.After(b)` is `b < a`, `t.IsZero()` is `t = 0`,
  and `t.Local()` / `t.In(loc)` do not change the instant, so they are the
  identity on instants.  The only place a timezone is observable is
  formatting, which in the source always happens after `.In(GMT)`; that
  composite is embedded as `formatRFC1123GMT`.
* `time.Format`/`time.Parse` with the RFC 1123 layout are external library
  collaborators; they are embedded as an explicit executable format/parse
  pair on instants (`formatRFC1123GMT` / `parseRFC1123`) whose only
  relevant behaviour is that parsing is partial and formatting is a
  function of the instant rendered in the GMT zone.
* The filesystem slice touched by the code is an association list from
  paths to file states (`Fs`), with explicit failure knobs for `MkdirAll`
  and `WriteFile`; `os.Remove` whose result the source ignores is a pure
  removal.  Go maps are embedded as (optional, to model nil maps)
  association lists.
* The HTTP client is a parameter `transport : Request → Except TransportError Response`;
  a `Response` carries the status code, the header map (first value per
  key, matching the source's `resp.Header[...][0]` use) and the decoded
  body (`none` models a body the JSON decoder rejects).
-/

set_option autoImplicit false

deriving instance DecidableEq for Except

/-- Go's `error` interface for the always-`nil` error results of the cache
tiers: a value of this type is never actually produced by the embedded
operations. -/
inductive GoError where
  | ioFailure
  deriving DecidableEq, Inhabited

/-- A Go runtime panic relevant to the memory tier: assigning to a `nil` map. -/
inductive GoPanic where
  | nilMapWrite
  deriving DecidableEq

/-- Transport-level failure of `http.DefaultClient.Do`. -/
inductive TransportError where
  | netFailure
  deriving DecidableEq

/-- Errors produced while loading from the disk cache
(`loadDataFromCache` / `readJsonFromFile` / `os.MkdirAll`). -/
inductive CacheLoadError where
  /-- Case where `os.Open` failed with an error other than not-exists. -/
  | ioRead
  /-- the JSON decoder rejected the file contents. -/
  | decode
  /-- Case where `os.MkdirAll` failed. -/
  | mkdir
  deriving DecidableEq

/-- Errors produced while writing the disk cache
(`saveResult` / `saveCacheInfo` / `DiskCache.SetCache`). -/
inductive WriteError where
  | mkdir
  | writeData
  | writeInfo
  deriving DecidableEq

/-- Errors produced by `loadDataFromApi`, one constructor per `return`
with a non-nil error in the source. -/
inductive ApiError where
  | transport (e : TransportError)
  /-- Error `failed getting the Expires header`. -/
  | missingExpires
  /-- Error `failed parsing the expires date`. -/
  | parseExpires
  /-- Error `failed getting the Last-Modified header`. -/
  | missingLastModified
  /-- Error `failed parsing the last-modified date`. -/
  | parseLastModified
  /-- Error `error converting the response body to json`. -/
  | decodeBody
  /-- Error `failed getting new data from the api with code d`. -/
  | statusError (code : Int)
  deriving DecidableEq

/-- Errors surfaced by `Locationforecast`, tagged by provenance. -/
inductive MetgoError where
  | fromCache (e : CacheLoadError)
  | fromApi (e : ApiError)
  /-- Error `failed updating the data in the cache`, wrapping `e`. -/
  | cacheUpdateFailed (e : WriteError)
  deriving DecidableEq

/-- From `metgo.go`: the freshness metadata pair
`cacheInfo { Expires, LastModified time.Time }` (instants, see the
conventions above). -/
structure cacheInfo where
  Expires : Int
  LastModified : Int
  deriving DecidableEq

/-- Go's zero value `cacheInfo{}`. -/
def cacheInfo.zero : cacheInfo := { Expires := 0, LastModified := 0 }

instance : Inhabited cacheInfo := ⟨cacheInfo.zero⟩

/-! ## Association-list maps (embedding Go maps and header maps) -/

/-- Lookup in an association list (first binding wins). -/
def alookup {α : Type} : List (String × α) → String → Option α
  | [], _ => none
  | p :: rest, k => if p.1 = k then some p.2 else alookup rest k

/-- Remove every binding of a key (Go `delete`, and the over-write part of
a Go map assignment). -/
def aremove {α : Type} : List (String × α) → String → List (String × α)
  | [], _ => []
  | p :: rest, k => if p.1 = k then aremove rest k else p :: aremove rest k

/-- Go map assignment `m[k] = v`. -/
def ainsert {α : Type} (l : List (String × α)) (k : String) (v : α) :
    List (String × α) :=
  aremove l k ++ [(k, v)]

theorem alookup_ainsert_self {α : Type} (l : List (String × α)) (k : String) (v : α) :
    alookup (ainsert l k v) k = some v := by
  unfold ainsert
  induction l with
  | nil => simp [alookup, aremove]
  | cons p rest ih =>
    by_cases h : p.1 = k
    · simpa [aremove, h] using ih
    · simpa [aremove, alookup, h] using ih

theorem alookup_ainsert_ne {α : Type} (l : List (String × α)) (k k' : String) (v : α)
    (h : k ≠ k') : alookup (ainsert l k v) k' = alookup l k' := by
  unfold ainsert
  induction l with
  | nil => simp [alookup, aremove, h]
  | cons p rest ih =>
    by_cases hp : p.1 = k
    · simpa [aremove, alookup, hp, h, hp ▸ h] using ih
    · by_cases hp' : p.1 = k'
      · simp [aremove, alookup, hp, hp', Ne.symm h]
      · simpa [aremove, alookup, hp, hp'] using ih

theorem aremove_of_alookup_none {α : Type} (l : List (String × α)) (k : String)
    (h : alookup l k = none) : aremove l k = l := by
  induction l with
  | nil => rfl
  | cons p rest ih =>
    by_cases hp : p.1 = k
    · simp [alookup, hp] at h
    · simp only [alookup, hp, if_neg hp] at h
      simp [aremove, hp, ih h]

theorem alookup_aremove_self {α : Type} (l : List (String × α)) (k : String) :
    alookup (aremove l k) k = none := by
  induction l with
  | nil => rfl
  | cons p rest ih =>
    by_cases hp : p.1 = k
    · simpa [aremove, hp] using ih
    · simpa [aremove, alookup, hp] using ih

theorem aremove_idem {α : Type} (l : List (String × α)) (k : String) :
    aremove (aremove l k) k = aremove l k :=
  aremove_of_alookup_none _ _ (alookup_aremove_self l k)

/-! ## Time helpers -/

/-- From `metgo.go`:
`func isExpired(checkDate time.Time) bool { return time.Now().After(checkDate) }`,
with the current instant made an explicit parameter `now`. -/
def isExpired (now checkDate : Int) : Bool := checkDate < now

/-- Tag used by the symbolic RFC 1123 rendering. -/
def rfcTag : String := "RFC1123GMT:"

/-- Decimal digits of an instant, sign included. -/
def intChars (t : Int) : List Char :=
  if t < 0 then '-' :: Nat.toDigits 10 t.natAbs else Nat.toDigits 10 t.natAbs

/-- Embedding of `t.In(GMT).Format(time.RFC1123)`: a symbolic but
executable rendering of the instant in the GMT zone. -/
def formatRFC1123GMT (t : Int) : String := rfcTag ++ String.mk (intChars t)

/-- Value of one decimal digit character. -/
def digitVal? (c : Char) : Option Nat :=
  if c.isDigit then some (c.toNat - '0'.toNat) else none

/-- Accumulating decimal reader. -/
def digitsAux : List Char → Nat → Option Nat
  | [], acc => some acc
  | c :: cs, acc =>
    match digitVal? c with
    | none => none
    | some d => digitsAux cs (acc * 10 + d)

/-- Read a non-empty all-digit character list as a natural number. -/
def digitsToNat? : List Char → Option Nat
  | [] => none
  | l => digitsAux l 0

/-- Read an optionally-signed decimal character list as an integer. -/
def parseIntChars (l : List Char) : Option Int :=
  match l with
  | [] => none
  | c :: cs =>
    if c = '-' then (digitsToNat? cs).map (fun n => -(n : Int))
    else (digitsToNat? l).map (fun n => (n : Int))

/-- Strip an expected leading character sequence. -/
def stripTag : List Char → List Char → Option (List Char)
  | [], rest => some rest
  | _ :: _, [] => none
  | t :: ts, c :: cs => if c = t then stripTag ts cs else none

/-- Embedding of `time.Parse(time.RFC1123, s)`: partial inverse of the
symbolic rendering; every other string fails to parse. -/
def parseRFC1123 (s : String) : Option Int :=
  match stripTag rfcTag.data s.data with
  | none => none
  | some rest => parseIntChars rest

/-! ## Filesystem model -/

/-- The decoded content of a file as seen through `readJsonFromFile`:
either it fails to open (with an error other than not-exists), or its
contents decode as a payload document, as a `cacheInfo` record, as JSON
`null` (what `json.MarshalIndent` produces for a nil pointer), or as
nothing the decoder accepts. -/
inductive FileEntry (T : Type) where
  /-- Case where `os.Open` fails with a non-not-exists error. -/
  | unreadable
  /-- contents decode as a payload document of type `T`. -/
  | dataJson (t : T)
  /-- contents decode as a `cacheInfo` record. -/
  | infoJson (i : cacheInfo)
  /-- contents are the JSON literal `null`. -/
  | nullJson
  /-- contents that the JSON decoder rejects for any expected type. -/
  | corrupt
  deriving DecidableEq

/-- The slice of the filesystem the embedded code touches: present files
(absent paths are simply unbound), whether `os.MkdirAll` fails, and the
set of paths on which `os.WriteFile` fails. -/
structure Fs (T : Type) where
  files : List (String × FileEntry T)
  mkdirFails : Bool
  failingWrites : List String
  deriving DecidableEq

/-- Embedding of `filepath.Join(dir, name)` for the two shapes the source
uses: `Join("", name) = name` and `Join(dir, name) = dir ++ "/" ++ name`. -/
def joinPath (dir name : String) : String :=
  if dir = "" then name else dir ++ pathSep ++ name
where
  pathSep : String := "/"

/-- The `metno-` piece of the cache file names. -/
def cacheNamePre : String := "metno-"

/-- The `.json` piece of the data file name. -/
def dataFileSuf : String := ".json"

/-- The `-info.json` piece of the info file name. -/
def infoFileSuf : String := "-info.json"

/-- From `metgo.go` (`getCacheFileNames`): the data file name
`metno-<name>.json` and info file name `metno-<name>-info.json`. -/
def getCacheFileNames (cacheName : String) : String × String :=
  (cacheNamePre ++ cacheName ++ dataFileSuf, cacheNamePre ++ cacheName ++ infoFileSuf)

/-- Embedding of `readJsonFromFile[T](filePath, false)` at the payload
type: a missing file is `ok none`, an unreadable file an I/O error, a
payload document `ok (some t)`, JSON `null` decodes into the zero value
of `T` (of which the Go code then returns the address, hence `some`),
anything else a decode error. -/
def readJsonData {T : Type} [Inhabited T] (fs : Fs T) (path : String) :
    Except CacheLoadError (Option T) :=
  match alookup fs.files path with
  | none => .ok none
  | some .unreadable => .error .ioRead
  | some (.dataJson t) => .ok (some t)
  | some .nullJson => .ok (some default)
  | some (.infoJson _) => .error .decode
  | some .corrupt => .error .decode

/-- Embedding of `readJsonFromFile[cacheInfo](filePath, false)`: same branching for the
metadata file. -/
def readJsonInfo {T : Type} (fs : Fs T) (path : String) :
    Except CacheLoadError (Option cacheInfo) :=
  match alookup fs.files path with
  | none => .ok none
  | some .unreadable => .error .ioRead
  | some (.infoJson i) => .ok (some i)
  | some .nullJson => .ok (some cacheInfo.zero)
  | some (.dataJson _) => .error .decode
  | some .corrupt => .error .decode

/-- Embedding of `os.WriteFile(path, content, perm)`: fails on the configured failing
paths, otherwise replaces the file's contents. -/
def writeFile {T : Type} (fs : Fs T) (path : String) (content : FileEntry T) :
    Option (Fs T) :=
  if path ∈ fs.failingWrites then none
  else some { fs with files := ainsert fs.files path content }

/-- Embedding of `os.Remove(path)` with its result discarded, as in
`DiskCache.ClearCache`: removes the file if present. -/
def removeFile {T : Type} (fs : Fs T) (path : String) : Fs T :=
  { fs with files := aremove fs.files path }

/-! ## Embedding of `metgo.go` (the retrieval coordinator) -/

/-- From `metgo.go`, `loadDataFromCache[T](cacheDir, cacheFileName, cacheInfoFileName)`:
empty cache dir means the cache is not used at all; otherwise the data
file and then the info file are read, any read error aborts, and a
missing data or info file yields the absent result `(none, cacheInfo.zero)`. -/
def loadDataFromCache {T : Type} [Inhabited T] (fs : Fs T)
    (cacheDir cacheFileName cacheInfoFileName : String) :
    Except CacheLoadError (Option T × cacheInfo) :=
  if cacheDir = "" then .ok (none, cacheInfo.zero)
  else if fs.mkdirFails then .error .mkdir
  else
    match readJsonData fs (joinPath cacheDir cacheFileName) with
    | .error e => .error e
    | .ok none => .ok (none, cacheInfo.zero)
    | .ok (some d) =>
      match readJsonInfo fs (joinPath cacheDir cacheInfoFileName) with
      | .error e => .error e
      | .ok none => .ok (none, cacheInfo.zero)
      | .ok (some i) => .ok (some d, i)

/-- Result of `prepareDataFromCache`: the function's return value plus the
memory-cache fields of the service after the `setMemCacheFunc` callback
(which in `Locationforecast` assigns `s.lastLocationforecastResult` /
`s.lastLocationforecastCacheInfo`). -/
structure PrepareOutcome (T : Type) where
  result : Except CacheLoadError (Option T)
  memObj : Option T
  memInfo : cacheInfo
  deriving DecidableEq

/-- From `metgo.go`, `prepareDataFromCache[T]`: memory-cache fast path
when present and unexpired; otherwise load the disk cache, promote it
into memory when the memory cache is empty or older, and return it when
unexpired. -/
def prepareDataFromCache {T : Type} [Inhabited T] (now : Int) (cacheDir : String)
    (memObj : Option T) (memInfo : cacheInfo) (cacheName : String) (fs : Fs T) :
    PrepareOutcome T :=
  match memObj with
  | some o =>
    if !isExpired now memInfo.Expires then
      { result := .ok (some o), memObj := memObj, memInfo := memInfo }
    else prepareFromDisk now cacheDir memObj memInfo cacheName fs
  | none => prepareFromDisk now cacheDir memObj memInfo cacheName fs
where
  /-- the part of `prepareDataFromCache` after the memory fast path. -/
  prepareFromDisk (now : Int) (cacheDir : String) (memObj : Option T)
      (memInfo : cacheInfo) (cacheName : String) (fs : Fs T) : PrepareOutcome T :=
    let names := getCacheFileNames cacheName
    match loadDataFromCache fs cacheDir names.1 names.2 with
    | .error e => { result := .error e, memObj := memObj, memInfo := memInfo }
    | .ok (none, _) => { result := .ok none, memObj := memObj, memInfo := memInfo }
    | .ok (some d, diskInfo) =>
      let newMemObj := if memObj.isNone ∨ memInfo.LastModified < diskInfo.LastModified
        then some d else memObj
      let newMemInfo := if memObj.isNone ∨ memInfo.LastModified < diskInfo.LastModified
        then diskInfo else memInfo
      if !isExpired now diskInfo.Expires then
        { result := .ok (some d), memObj := newMemObj, memInfo := newMemInfo }
      else
        { result := .ok none, memObj := newMemObj, memInfo := newMemInfo }

/-! ## HTTP model and the conditional fetcher `loadDataFromApi` -/

/-- The request built by `loadDataFromApi`: method, url, and the header
map (Go `http.Header.Set` keeps one value per key). -/
structure Request where
  method : String
  url : String
  headers : List (String × String)
  deriving DecidableEq

/-- Embedding of `req.Header.Set(key, value)`. -/
def Request.setHeader (r : Request) (key value : String) : Request :=
  { r with headers := ainsert r.headers key value }

/-- Header lookup on a request, for stating properties. -/
def Request.getHeader (r : Request) (key : String) : Option String :=
  alookup r.headers key

/-- Name of the `User-Agent` header. -/
def userAgentKey : String := "User-Agent"

/-- Name of the `If-Modified-Since` header. -/
def ifModifiedSinceKey : String := "If-Modified-Since"

/-- Name of the `Expires` response header. -/
def expiresKey : String := "Expires"

/-- Name of the `Last-Modified` response header. -/
def lastModifiedKey : String := "Last-Modified"

/-- HTTP GET method string. -/
def getMethod : String := "GET"

/-- An HTTP response as observed by `loadDataFromApi`: the status code,
the header map (first value per key, the `[0]` the source indexes), and
the body as the JSON decoder sees it (`none`: the decoder rejects it). -/
structure Response (T : Type) where
  statusCode : Int
  headers : List (String × String)
  body : Option T
  deriving DecidableEq

/-- Header lookup on a response (`resp.Header[key]` + `[0]`). -/
def Response.getHeader {T : Type} (r : Response T) (key : String) : Option String :=
  alookup r.headers key

/-- From `metgo.go`, `loadDataFromApi` lines 207-220: build the request —
always set `User-Agent` to the service's site name, and set
`If-Modified-Since` to the prior `LastModified` rendered in GMT with the
RFC 1123 layout exactly when that timestamp is non-zero and a prior
cached entry exists. -/
def buildApiRequest {T : Type} (siteName url : String) (lastCachedData : Option T)
    (lastCacheInfo : cacheInfo) : Request :=
  let req : Request := { method := getMethod, url := url, headers := [] }
  let req := req.setHeader userAgentKey siteName
  if lastCacheInfo.LastModified ≠ 0 ∧ lastCachedData.isSome then
    req.setHeader ifModifiedSinceKey (formatRFC1123GMT lastCacheInfo.LastModified)
  else req

/-- From `metgo.go`, `loadDataFromApi[T]`: build the request, execute it
through `transport`, extract and parse the mandatory `Expires` and
`Last-Modified` headers (in that order, before any status check, exactly
as the source does), then dispatch on the status code: 304 returns the
prior entry with the new metadata, 2xx decodes the body into a new entry,
anything else fails with the status code. -/
def loadDataFromApi {T : Type}
    (transport : Request → Except TransportError (Response T))
    (siteName url : String) (lastCachedData : Option T) (lastCacheInfo : cacheInfo) :
    Except ApiError (Option T × cacheInfo) :=
  match transport (buildApiRequest siteName url lastCachedData lastCacheInfo) with
  | .error e => .error (.transport e)
  | .ok resp =>
    match resp.getHeader expiresKey with
    | none => .error .missingExpires
    | some ev =>
      match parseRFC1123 ev with
      | none => .error .parseExpires
      | some expiresDate =>
        match resp.getHeader lastModifiedKey with
        | none => .error .missingLastModified
        | some lv =>
          match parseRFC1123 lv with
          | none => .error .parseLastModified
          | some lastModifiedDate =>
            if resp.statusCode = 304 then
              .ok (lastCachedData,
                { Expires := expiresDate, LastModified := lastModifiedDate })
            else if 200 ≤ resp.statusCode ∧ resp.statusCode < 300 then
              match resp.body with
              | none => .error .decodeBody
              | some t =>
                .ok (some t,
                  { Expires := expiresDate, LastModified := lastModifiedDate })
            else .error (.statusError resp.statusCode)

/-! ## Disk-cache writes and the coordinator `Locationforecast` -/

/-- From `metgo.go`, `saveResult`: nothing is written when no cache dir is
configured; otherwise marshal the object (a nil pointer marshals to the
JSON literal `null`) and write it to the data file. -/
def saveResult {T : Type} (cacheDir : String) (cacheObject : Option T)
    (cacheFileName : String) (fs : Fs T) : Fs T × Option WriteError :=
  if cacheDir = "" then (fs, none)
  else
    let content := match cacheObject with
      | some t => FileEntry.dataJson t
      | none => FileEntry.nullJson
    match writeFile fs (joinPath cacheDir cacheFileName) content with
    | none => (fs, some .writeData)
    | some fs2 => (fs2, none)

/-- From `metgo.go`, `saveCacheInfo`: same for the info file. -/
def saveCacheInfo {T : Type} (cacheDir : String) (cacheInfoObject : cacheInfo)
    (cacheInfoFileName : String) (fs : Fs T) : Fs T × Option WriteError :=
  if cacheDir = "" then (fs, none)
  else
    match writeFile fs (joinPath cacheDir cacheInfoFileName)
        (FileEntry.infoJson cacheInfoObject) with
    | none => (fs, some .writeInfo)
    | some fs2 => (fs2, none)

/-- From `metgo.go`, `(s *MetNoService) updateDiskCache`: write the data
file, then the info file; the first failure aborts. -/
def updateDiskCache {T : Type} (cacheDir : String) (cacheObject : Option T)
    (cacheInfoObject : cacheInfo) (cacheName : String) (fs : Fs T) :
    Fs T × Option WriteError :=
  let names := getCacheFileNames cacheName
  match saveResult cacheDir cacheObject names.1 fs with
  | (fs2, some e) => (fs2, some e)
  | (fs2, none) => saveCacheInfo cacheDir cacheInfoObject names.2 fs2

/-- Everything observable about one `Locationforecast` call: the returned
value or error, the number of network round trips made, and the service's
memory-cache fields and the filesystem afterwards. -/
structure ForecastOutcome (T : Type) where
  result : Except MetgoError (Option T)
  networkCalls : Nat
  memObj : Option T
  memInfo : cacheInfo
  fs : Fs T
  deriving DecidableEq

/-- From `metgo.go`, `(s *MetNoService) Locationforecast` lines 39-71 with
the geographic key already rendered to `cacheName`/`url` (the `%.4f`
formatting of the float coordinates is outside the cache engine): consult
`prepareDataFromCache`; a cached value returns immediately with zero
network calls; otherwise call `loadDataFromApi` (note the source passes
the service's memory fields, i.e. the values *after* the promotion
callback ran), store its result in memory, then in the disk cache. -/
def Locationforecast {T : Type} [Inhabited T] (now : Int)
    (siteName url cacheDir cacheName : String)
    (memObj : Option T) (memInfo : cacheInfo) (fs : Fs T)
    (transport : Request → Except TransportError (Response T)) :
    ForecastOutcome T :=
  let p := prepareDataFromCache now cacheDir memObj memInfo cacheName fs
  match p.result with
  | .error e =>
    { result := .error (.fromCache e), networkCalls := 0,
      memObj := p.memObj, memInfo := p.memInfo, fs := fs }
  | .ok (some o) =>
    { result := .ok (some o), networkCalls := 0,
      memObj := p.memObj, memInfo := p.memInfo, fs := fs }
  | .ok none =>
    match loadDataFromApi transport siteName url p.memObj p.memInfo with
    | .error e =>
      { result := .error (.fromApi e), networkCalls := 1,
        memObj := p.memObj, memInfo := p.memInfo, fs := fs }
    | .ok (apiObj, apiInfo) =>
      match updateDiskCache cacheDir apiObj apiInfo cacheName fs with
      | (fs2, some w) =>
        { result := .error (.cacheUpdateFailed w), networkCalls := 1,
          memObj := apiObj, memInfo := apiInfo, fs := fs2 }
      | (fs2, none) =>
        { result := .ok apiObj, networkCalls := 1,
          memObj := apiObj, memInfo := apiInfo, fs := fs2 }

/-! ## Embedding of `metgo_cache.go` (the cache tiers) -/

/-- From `metgo_cache.go`: `MemoryCache[T]` with its two Go maps
`CacheObject map[string]*T` and `CacheInfoObject map[string]cacheInfo`.
`none` models a Go nil map (the zero value); map values of the object map
are `Option T` because Go stores a possibly-nil pointer. -/
structure MemoryCache (T : Type) where
  CacheObject : Option (List (String × Option T))
  CacheInfoObject : Option (List (String × cacheInfo))
  deriving DecidableEq

/-- Read of a possibly-nil Go map: reading a nil map is legal and finds
nothing. -/
def mapLookup {α : Type} (m : Option (List (String × α))) (k : String) : Option α :=
  match m with
  | none => none
  | some l => alookup l k

/-- Assignment to a possibly-nil Go map: assigning to a nil map panics. -/
def mapAssign {α : Type} (m : Option (List (String × α))) (k : String) (v : α) :
    Except GoPanic (List (String × α)) :=
  match m with
  | none => .error .nilMapWrite
  | some l => .ok (ainsert l k v)

/-- Go `delete` on a possibly-nil map: deleting from a nil map is a no-op. -/
def mapDelete {α : Type} (m : Option (List (String × α))) (k : String) :
    Option (List (String × α)) :=
  match m with
  | none => none
  | some l => some (aremove l k)

/-- From `metgo_cache.go`, `makeSureMapIsInitialized` (renamed,
source name: makeSureMapIsInitialized): replace each nil map by a fresh
empty one. -/
def MemoryCache.makeSureMapIsSetup {T : Type} (m : MemoryCache T) : MemoryCache T :=
  { CacheObject := some (m.CacheObject.getD []),
    CacheInfoObject := some (m.CacheInfoObject.getD []) }

/-- From `metgo_cache.go`, `MemoryCache.GetCache`: initialize the maps,
then return the indexed values (`nil` pointer / zero `cacheInfo` when
absent) with a nil error, together with the receiver after the in-place
initialization. -/
def MemoryCache.GetCache {T : Type} (m : MemoryCache T) (cacheName : String) :
    (Option T × cacheInfo × Option GoError) × MemoryCache T :=
  let m2 := m.makeSureMapIsSetup
  (((mapLookup m2.CacheObject cacheName).join,
    (mapLookup m2.CacheInfoObject cacheName).getD cacheInfo.zero,
    none), m2)

/-- From `metgo_cache.go`, `MemoryCache.SetCache`: initialize the maps,
then assign both; the `Except` tracks the Go panic that a write to a nil
map would raise (the initialization makes it unreachable). -/
def MemoryCache.SetCache {T : Type} (m : MemoryCache T) (cacheName : String)
    (cacheObject : Option T) (cacheInfoObject : cacheInfo) :
    Except GoPanic (MemoryCache T × Option GoError) :=
  let m2 := m.makeSureMapIsSetup
  match mapAssign m2.CacheObject cacheName cacheObject with
  | .error p => .error p
  | .ok l1 =>
    match mapAssign m2.CacheInfoObject cacheName cacheInfoObject with
    | .error p => .error p
    | .ok l2 =>
      .ok ({ CacheObject := some l1, CacheInfoObject := some l2 }, none)

/-- From `metgo_cache.go`, `MemoryCache.ClearCache`: initialize the maps,
delete the key from both, return a nil error. -/
def MemoryCache.ClearCache {T : Type} (m : MemoryCache T) (cacheName : String) :
    MemoryCache T × Option GoError :=
  let m2 := m.makeSureMapIsSetup
  ({ CacheObject := mapDelete m2.CacheObject cacheName,
     CacheInfoObject := mapDelete m2.CacheInfoObject cacheName }, none)

/-- From `metgo_cache.go`: `DiskCache[T]` holds only its configured
directory. -/
structure DiskCache where
  CacheDirectory : String
  deriving DecidableEq

/-- From `metgo_cache.go`, `(m *DiskCache) getCacheFileNames`: the source
duplicates the body of the free `getCacheFileNames` verbatim. -/
def DiskCache.getCacheFileNames (_ : DiskCache) (cacheName : String) :
    String × String :=
  (cacheNamePre ++ cacheName ++ dataFileSuf, cacheNamePre ++ cacheName ++ infoFileSuf)

/-- From `metgo_cache.go`, `DiskCache.GetCache`: an empty directory means
absent; otherwise read the data file (missing file: absent, read/decode
error: that error) and then the info file the same way, returning the
pair only when both are present and decode. -/
def DiskCache.GetCache {T : Type} [Inhabited T] (m : DiskCache) (fs : Fs T)
    (cacheName : String) : Except CacheLoadError (Option T × cacheInfo) :=
  if m.CacheDirectory = "" then .ok (none, cacheInfo.zero)
  else
    let names := m.getCacheFileNames cacheName
    match readJsonData fs (joinPath m.CacheDirectory names.1) with
    | .error e => .error e
    | .ok none => .ok (none, cacheInfo.zero)
    | .ok (some d) =>
      match readJsonInfo fs (joinPath m.CacheDirectory names.2) with
      | .error e => .error e
      | .ok none => .ok (none, cacheInfo.zero)
      | .ok (some i) => .ok (some d, i)

/-- From `metgo_cache.go`, `DiskCache.SetCache`: an empty directory is a
no-op success; otherwise make sure the directory exists, then write the
data file and the info file, aborting on the first failure. -/
def DiskCache.SetCache {T : Type} (m : DiskCache) (fs : Fs T) (cacheName : String)
    (cacheObject : Option T) (cacheInfoObject : cacheInfo) :
    Fs T × Option WriteError :=
  if m.CacheDirectory = "" then (fs, none)
  else if fs.mkdirFails then (fs, some .mkdir)
  else
    let names := m.getCacheFileNames cacheName
    let content := match cacheObject with
      | some t => FileEntry.dataJson t
      | none => FileEntry.nullJson
    match writeFile fs (joinPath m.CacheDirectory names.1) content with
    | none => (fs, some .writeData)
    | some fs2 =>
      match writeFile fs2 (joinPath m.CacheDirectory names.2)
          (FileEntry.infoJson cacheInfoObject) with
      | none => (fs2, some .writeInfo)
      | some fs3 => (fs3, none)

/-- From `metgo_cache.go`, `DiskCache.ClearCache`: note there is **no**
empty-directory guard here — both cache file paths are joined with the
configured directory (which for an empty directory yields paths relative
to the current working directory) and removed, with the removal results
discarded; the returned error is always nil. -/
def DiskCache.ClearCache {T : Type} (m : DiskCache) (fs : Fs T)
    (cacheName : String) : Fs T × Option GoError :=
  let names := m.getCacheFileNames cacheName
  let fs2 := removeFile fs (joinPath m.CacheDirectory names.1)
  let fs3 := removeFile fs2 (joinPath m.CacheDirectory names.2)
  (fs3, none)

/-! ## Theorems about the conditional fetcher -/

/-- The protocol errors of `loadDataFromApi` about the two mandatory
freshness headers. -/
def ApiError.isHeaderError : ApiError → Bool
  | .missingExpires => true
  | .parseExpires => true
  | .missingLastModified => true
  | .parseLastModified => true
  | _ => false

/-- A response header that is absent or does not parse as an RFC 1123 date. -/
def headerMissingOrMalformed {T : Type} (resp : Response T) (key : String) : Prop :=
  resp.getHeader key = none ∨
    ∃ s, resp.getHeader key = some s ∧ parseRFC1123 s = none

/-- C5: on every fetch the request built by `loadDataFromApi` carries the
`User-Agent` header with the service's site name, and carries the
`If-Modified-Since` header exactly when the prior metadata's
`LastModified` is non-zero and a prior cached entry exists, in which case
its value is that timestamp rendered in the GMT zone with the RFC 1123
layout. -/
theorem ifModifiedSince_exactly_when_prior_entry {T : Type} (siteName url : String)
    (lastCachedData : Option T) (lastCacheInfo : cacheInfo) :
    (buildApiRequest siteName url lastCachedData lastCacheInfo).getHeader
        userAgentKey = some siteName ∧
    (buildApiRequest siteName url lastCachedData lastCacheInfo).getHeader
        ifModifiedSinceKey =
      (if lastCacheInfo.LastModified ≠ 0 ∧ lastCachedData.isSome then
        some (formatRFC1123GMT lastCacheInfo.LastModified) else none) := by
  unfold buildApiRequest
  by_cases h : lastCacheInfo.LastModified ≠ 0 ∧ lastCachedData.isSome
  · refine ⟨?_, ?_⟩
    · simp only [if_pos h, Request.getHeader, Request.setHeader]
      rw [alookup_ainsert_ne _ _ _ _ (by decide), alookup_ainsert_self]
    · simp only [if_pos h, Request.getHeader, Request.setHeader]
      rw [alookup_ainsert_self]
  · refine ⟨?_, ?_⟩
    · simp only [if_neg h, Request.getHeader, Request.setHeader]
      rw [alookup_ainsert_self]
    · simp only [if_neg h, Request.getHeader, Request.setHeader]
      rw [alookup_ainsert_ne _ _ _ _ (by decide)]
      rfl

/-- C2: when the transport answers 304 and both freshness headers parse,
`loadDataFromApi` returns exactly the prior cached entry unchanged,
paired with metadata freshly parsed from the response headers. -/
theorem notModified_preserves_prior_entry {T : Type}
    (transport : Request → Except TransportError (Response T))
    (siteName url : String) (lastCachedData : Option T) (lastCacheInfo : cacheInfo)
    (resp : Response T) (es ls : String) (e l : Int)
    (ht : transport (buildApiRequest siteName url lastCachedData lastCacheInfo)
      = .ok resp)
    (h304 : resp.statusCode = 304)
    (he : resp.getHeader expiresKey = some es)
    (hep : parseRFC1123 es = some e)
    (hl : resp.getHeader lastModifiedKey = some ls)
    (hlp : parseRFC1123 ls = some l) :
    loadDataFromApi transport siteName url lastCachedData lastCacheInfo
      = .ok (lastCachedData, { Expires := e, LastModified := l }) := by
  unfold loadDataFromApi
  rw [ht]
  simp [he, hep, hl, hlp, h304]

/-- C3, amended part: on a status that is neither 2xx nor 304, provided
both freshness headers are present and parse, `loadDataFromApi` fails
with the upstream-status error carrying that status code. -/
theorem badStatus_yields_statusError {T : Type}
    (transport : Request → Except TransportError (Response T))
    (siteName url : String) (lastCachedData : Option T) (lastCacheInfo : cacheInfo)
    (resp : Response T) (es ls : String) (e l : Int)
    (ht : transport (buildApiRequest siteName url lastCachedData lastCacheInfo)
      = .ok resp)
    (hs1 : resp.statusCode ≠ 304)
    (hs2 : ¬(200 ≤ resp.statusCode ∧ resp.statusCode < 300))
    (he : resp.getHeader expiresKey = some es)
    (hep : parseRFC1123 es = some e)
    (hl : resp.getHeader lastModifiedKey = some ls)
    (hlp : parseRFC1123 ls = some l) :
    loadDataFromApi transport siteName url lastCachedData lastCacheInfo
      = .error (.statusError resp.statusCode) := by
  unfold loadDataFromApi
  rw [ht]
  simp [he, hep, hl, hlp, hs1, hs2]

/-- C4: on a 2xx or 304 response in which the `Expires` header or the
`Last-Modified` header is absent or does not parse as an RFC 1123 date,
`loadDataFromApi` fails with one of the four header protocol errors (so
no entry with a defaulted or guessed expiry is ever returned). -/
theorem mandatory_header_enforcement {T : Type}
    (transport : Request → Except TransportError (Response T))
    (siteName url : String) (lastCachedData : Option T) (lastCacheInfo : cacheInfo)
    (resp : Response T)
    (ht : transport (buildApiRequest siteName url lastCachedData lastCacheInfo)
      = .ok resp)
    (hstat : (200 ≤ resp.statusCode ∧ resp.statusCode < 300) ∨ resp.statusCode = 304)
    (hbad : headerMissingOrMalformed resp expiresKey ∨
      headerMissingOrMalformed resp lastModifiedKey) :
    ∃ err, loadDataFromApi transport siteName url lastCachedData lastCacheInfo
      = .error err ∧ err.isHeaderError = true := by
  unfold loadDataFromApi
  rw [ht]
  rcases hbad with hbad | hbad
  · rcases hbad with hnone | ⟨s, hs, hp⟩
    · exact ⟨.missingExpires, by simp [hnone], rfl⟩
    · exact ⟨.parseExpires, by simp [hs, hp], rfl⟩
  · rcases hbad with hnone | ⟨s, hs, hp⟩
    · cases hval : resp.getHeader expiresKey with
      | none => exact ⟨.missingExpires, by simp [hval], rfl⟩
      | some es =>
        cases hparse : parseRFC1123 es with
        | none => exact ⟨.parseExpires, by simp [hval, hparse], rfl⟩
        | some e => exact ⟨.missingLastModified, by simp [hval, hparse, hnone], rfl⟩
    · cases hval : resp.getHeader expiresKey with
      | none => exact ⟨.missingExpires, by simp [hval], rfl⟩
      | some es =>
        cases hparse : parseRFC1123 es with
        | none => exact ⟨.parseExpires, by simp [hval, hparse], rfl⟩
        | some e => exact ⟨.parseLastModified, by simp [hval, hparse, hs, hp], rfl⟩

/-! ## Concrete fixtures used by witnesses and counterexamples -/

/-- Site name fixture. -/
def siteA : String := "met-client"

/-- URL fixture. -/
def urlA : String := "api-url"

/-- Cache key fixture. -/
def keyA : String := "locationforecast-1"

/-- Prior metadata fixture (expired validity, known last-modified). -/
def infoPrior : cacheInfo := { Expires := 10, LastModified := 50 }

/-- A well-formed freshness header pair. -/
def hdrsGood : List (String × String) :=
  [(expiresKey, formatRFC1123GMT 100), (lastModifiedKey, formatRFC1123GMT 50)]

/-- A 304 response with well-formed freshness headers. -/
def resp304 : Response Nat := { statusCode := 304, headers := hdrsGood, body := none }

/-- Transport fixture answering `resp304`. -/
def tr304 : Request → Except TransportError (Response Nat) := fun _ => .ok resp304

/-- A 500 response with well-formed freshness headers. -/
def resp500 : Response Nat := { statusCode := 500, headers := hdrsGood, body := none }

/-- Transport fixture answering `resp500`. -/
def tr500 : Request → Except TransportError (Response Nat) := fun _ => .ok resp500

/-- A 500 response without any headers. -/
def respBare500 : Response Nat := { statusCode := 500, headers := [], body := none }

/-- Transport fixture answering `respBare500`. -/
def trBare500 : Request → Except TransportError (Response Nat) := fun _ => .ok respBare500

/-- A 200 response without any headers. -/
def respBare200 : Response Nat := { statusCode := 200, headers := [], body := some 7 }

/-- Transport fixture answering `respBare200`. -/
def trBare200 : Request → Except TransportError (Response Nat) := fun _ => .ok respBare200

/-- Witness for C2 at a concrete 304 exchange: the prior entry `some 7`
comes back unchanged and the metadata is the freshly parsed header pair. -/
theorem notModified_preserves_prior_entry_witness :
    loadDataFromApi tr304 siteA urlA (some 7) infoPrior
      = .ok (some 7, { Expires := 100, LastModified := 50 }) :=
  notModified_preserves_prior_entry tr304 siteA urlA (some 7) infoPrior resp304
    (formatRFC1123GMT 100) (formatRFC1123GMT 50) 100 50
    rfl rfl (by decide) (by decide) (by decide) (by decide)

/-- Counterexample for C3 as stated: a 500 response lacking the `Expires`
header makes `loadDataFromApi` fail with the missing-header error, which
does not carry the status code 500. -/
theorem badStatus_error_counterexample :
    loadDataFromApi trBare500 siteA urlA (none : Option Nat) cacheInfo.zero
      = .error .missingExpires ∧
    ApiError.missingExpires ≠ ApiError.statusError 500 :=
  ⟨rfl, by decide⟩

/-- Witness for the amended C3 at a concrete 500 exchange with well-formed
headers. -/
theorem badStatus_yields_statusError_witness :
    loadDataFromApi tr500 siteA urlA (none : Option Nat) cacheInfo.zero
      = .error (.statusError 500) :=
  badStatus_yields_statusError tr500 siteA urlA none cacheInfo.zero resp500
    (formatRFC1123GMT 100) (formatRFC1123GMT 50) 100 50
    rfl (by decide) (by decide) (by decide) (by decide) (by decide) (by decide)

/-- Witness for C4 at a concrete 200 exchange with no headers. -/
theorem mandatory_header_enforcement_witness :
    ∃ err, loadDataFromApi trBare200 siteA urlA (none : Option Nat) cacheInfo.zero
      = .error err ∧ err.isHeaderError = true :=
  mandatory_header_enforcement trBare200 siteA urlA none cacheInfo.zero respBare200
    rfl (Or.inl (by decide)) (Or.inl (Or.inl rfl))

/-! ## Theorems about the retrieval coordinator -/

/-- C10: expiry is strict — `isExpired` is true exactly when the current
instant is strictly after the checked timestamp, an entry whose `Expires`
equals the present instant is not expired, and a retrieval at that
boundary instant is served from the memory cache with zero network
calls. -/
theorem isExpired_strict_boundary {T : Type} [Inhabited T] (now d : Int)
    (siteName url cacheDir cacheName : String) (o : T) (memInfo : cacheInfo)
    (fs : Fs T) (transport : Request → Except TransportError (Response T))
    (hb : memInfo.Expires = now) :
    (isExpired now d = true ↔ d < now) ∧
    isExpired now now = false ∧
    (Locationforecast now siteName url cacheDir cacheName (some o) memInfo fs
      transport).networkCalls = 0 ∧
    (Locationforecast now siteName url cacheDir cacheName (some o) memInfo fs
      transport).result = .ok (some o) := by
  refine ⟨by simp [isExpired], by simp [isExpired], ?_, ?_⟩ <;>
    simp [Locationforecast, prepareDataFromCache, isExpired, hb]

/-- Cache directory fixture. -/
def dirA : String := "cache-dir"

/-- Metadata fixture whose validity window ends exactly at instant 100. -/
def infoBoundary : cacheInfo := { Expires := 100, LastModified := 50 }

/-- An empty filesystem with no injected failures. -/
def fsEmpty : Fs Nat := { files := [], mkdirFails := false, failingWrites := [] }

/-- Witness for C10 at the concrete boundary instant 100. -/
theorem isExpired_strict_boundary_witness :
    (isExpired 100 100 = true ↔ (100 : Int) < 100) ∧
    isExpired 100 100 = false ∧
    (Locationforecast 100 siteA urlA dirA keyA (some 3) infoBoundary fsEmpty
      trBare200).networkCalls = 0 ∧
    (Locationforecast 100 siteA urlA dirA keyA (some 3) infoBoundary fsEmpty
      trBare200).result = .ok (some 3) :=
  isExpired_strict_boundary 100 100 siteA urlA dirA keyA 3 infoBoundary fsEmpty
    trBare200 rfl

/-- C1: freshness short-circuit — whenever the in-memory entry is non-nil
and unexpired, or the disk tier holds a readable, unexpired entry/metadata
pair, `Locationforecast` makes zero network calls and returns that cached
entry. -/
theorem freshness_short_circuit {T : Type} [Inhabited T] (now : Int)
    (siteName url cacheDir cacheName : String) (memObj : Option T)
    (memInfo : cacheInfo) (fs : Fs T)
    (transport : Request → Except TransportError (Response T))
    (h : (∃ o, memObj = some o ∧ isExpired now memInfo.Expires = false) ∨
      (cacheDir ≠ "" ∧ fs.mkdirFails = false ∧
        (∃ d, alookup fs.files
            (joinPath cacheDir (getCacheFileNames cacheName).1)
          = some (.dataJson d)) ∧
        (∃ i, alookup fs.files
            (joinPath cacheDir (getCacheFileNames cacheName).2)
          = some (.infoJson i) ∧ isExpired now i.Expires = false))) :
    (Locationforecast now siteName url cacheDir cacheName memObj memInfo fs
      transport).networkCalls = 0 ∧
    ∃ e, (Locationforecast now siteName url cacheDir cacheName memObj memInfo fs
        transport).result = .ok (some e) ∧
      ((memObj = some e ∧ isExpired now memInfo.Expires = false) ∨
        (alookup fs.files (joinPath cacheDir (getCacheFileNames cacheName).1)
            = some (.dataJson e) ∧
          ∃ i, alookup fs.files
              (joinPath cacheDir (getCacheFileNames cacheName).2)
            = some (.infoJson i) ∧ isExpired now i.Expires = false)) := by
  by_cases hm : ∃ o, memObj = some o ∧ isExpired now memInfo.Expires = false
  · obtain ⟨o, ho, hf⟩ := hm
    subst ho
    refine ⟨?_, o, ?_, Or.inl ⟨rfl, hf⟩⟩ <;>
      simp [Locationforecast, prepareDataFromCache, hf]
  · rcases h with hmem | ⟨hdir, hmk, ⟨d, hd⟩, ⟨i, hi, hfresh⟩⟩
    · exact absurd hmem hm
    · have hgo : prepareDataFromCache now cacheDir memObj memInfo cacheName fs
          = prepareDataFromCache.prepareFromDisk now cacheDir memObj memInfo
              cacheName fs := by
        cases hmo : memObj with
        | none => simp [prepareDataFromCache]
        | some o =>
          have hexp : isExpired now memInfo.Expires = true := by
            cases hval : isExpired now memInfo.Expires with
            | false => exact absurd ⟨o, hmo, hval⟩ hm
            | true => rfl
          simp [prepareDataFromCache, hexp]
      have hdisk : prepareDataFromCache.prepareFromDisk now cacheDir memObj
          memInfo cacheName fs
          = { result := .ok (some d),
              memObj := if memObj.isNone ∨ memInfo.LastModified < i.LastModified
                then some d else memObj,
              memInfo := if memObj.isNone ∨ memInfo.LastModified < i.LastModified
                then i else memInfo } := by
        simp [prepareDataFromCache.prepareFromDisk, loadDataFromCache,
          readJsonData, readJsonInfo, hdir, hmk, hd, hi, hfresh]
      refine ⟨?_, d, ?_, Or.inr ⟨hd, i, hi, hfresh⟩⟩ <;>
        simp [Locationforecast, hgo, hdisk]

/-- Fresh disk metadata fixture (valid until instant 200). -/
def infoFreshDisk : cacheInfo := { Expires := 200, LastModified := 60 }

/-- A filesystem holding a fresh disk-cache pair for `keyA` under `dirA`. -/
def fsDisk : Fs Nat :=
  { files := [(joinPath dirA (getCacheFileNames keyA).1, FileEntry.dataJson 7),
      (joinPath dirA (getCacheFileNames keyA).2, FileEntry.infoJson infoFreshDisk)],
    mkdirFails := false, failingWrites := [] }

/-- Witness for C1: at instant 50, with an empty memory cache and a fresh
disk pair, retrieval returns the disk entry with zero network calls. -/
theorem freshness_short_circuit_witness :
    (Locationforecast 50 siteA urlA dirA keyA (none : Option Nat) cacheInfo.zero
      fsDisk trBare200).networkCalls = 0 ∧
    ∃ e, (Locationforecast 50 siteA urlA dirA keyA (none : Option Nat)
        cacheInfo.zero fsDisk trBare200).result = .ok (some e) ∧
      (((none : Option Nat) = some e ∧ isExpired 50 cacheInfo.zero.Expires = false) ∨
        (alookup fsDisk.files (joinPath dirA (getCacheFileNames keyA).1)
            = some (.dataJson e) ∧
          ∃ i, alookup fsDisk.files (joinPath dirA (getCacheFileNames keyA).2)
            = some (.infoJson i) ∧ isExpired 50 i.Expires = false)) :=
  freshness_short_circuit 50 siteA urlA dirA keyA none cacheInfo.zero fsDisk
    trBare200
    (Or.inr ⟨by decide, rfl, ⟨7, by decide⟩, ⟨infoFreshDisk, by decide, by decide⟩⟩)

/-! ## Theorems about the cache tiers -/

/-- Disk tier fixture configured on `dirA`. -/
def dcA : DiskCache := { CacheDirectory := dirA }

/-- Disk tier fixture with no configured directory. -/
def dcEmpty : DiskCache := { CacheDirectory := "" }

/-- A filesystem holding only the data file for `keyA` under `dirA`. -/
def fsDataOnly : Fs Nat :=
  { files := [(joinPath dirA (getCacheFileNames keyA).1, FileEntry.dataJson 5)],
    mkdirFails := false, failingWrites := [] }

/-- A filesystem with a data file and a corrupt metadata file for `keyA`. -/
def fsCorruptInfo : Fs Nat :=
  { files := [(joinPath dirA (getCacheFileNames keyA).1, FileEntry.dataJson 5),
      (joinPath dirA (getCacheFileNames keyA).2, FileEntry.corrupt)],
    mkdirFails := false, failingWrites := [] }

/-- Counterexample for C6 as stated: with the data file present and the
metadata file corrupt, `DiskCache.GetCache` returns a decode error, not
the absent result. -/
theorem diskCache_corrupt_info_counterexample :
    DiskCache.GetCache dcA fsCorruptInfo keyA = .error CacheLoadError.decode ∧
    (Except.error CacheLoadError.decode
      : Except CacheLoadError (Option Nat × cacheInfo))
      ≠ .ok (none, cacheInfo.zero) :=
  ⟨by decide, by decide⟩

/-- C6 (amended): `DiskCache.GetCache` reports absent when the data file
is missing, and also when the data file is present but the metadata file
is missing; a corrupt metadata file yields a decode error (not absent);
and a payload is never returned without a present metadata file. -/
theorem diskCache_get_absence {T : Type} [Inhabited T] (m : DiskCache) (fs : Fs T)
    (k : String) (hdir : m.CacheDirectory ≠ "") :
    (alookup fs.files (joinPath m.CacheDirectory (m.getCacheFileNames k).1) = none →
      m.GetCache fs k = .ok (none, cacheInfo.zero)) ∧
    (∀ d : T, alookup fs.files
        (joinPath m.CacheDirectory (m.getCacheFileNames k).1)
        = some (.dataJson d) →
      alookup fs.files (joinPath m.CacheDirectory (m.getCacheFileNames k).2) = none →
      m.GetCache fs k = .ok (none, cacheInfo.zero)) ∧
    (∀ d : T, alookup fs.files
        (joinPath m.CacheDirectory (m.getCacheFileNames k).1)
        = some (.dataJson d) →
      alookup fs.files (joinPath m.CacheDirectory (m.getCacheFileNames k).2)
        = some .corrupt →
      m.GetCache fs k = .error CacheLoadError.decode) ∧
    (∀ (d : T) (i : cacheInfo), m.GetCache fs k = .ok (some d, i) →
      alookup fs.files (joinPath m.CacheDirectory (m.getCacheFileNames k).2)
        ≠ none) := by
  refine ⟨?_, ?_, ?_, ?_⟩
  · intro h1
    simp [DiskCache.GetCache, readJsonData, hdir, h1]
  · intro d h1 h2
    simp [DiskCache.GetCache, readJsonData, readJsonInfo, hdir, h1, h2]
  · intro d h1 h2
    simp [DiskCache.GetCache, readJsonData, readJsonInfo, hdir, h1, h2]
  · intro d i hres hnone
    cases hdata : alookup fs.files
        (joinPath m.CacheDirectory (m.getCacheFileNames k).1) with
    | none => simp [DiskCache.GetCache, readJsonData, hdir, hdata] at hres
    | some fe =>
      cases fe <;>
        simp [DiskCache.GetCache, readJsonData, readJsonInfo, hdir, hdata,
          hnone] at hres

/-- Witness for the amended C6 at three concrete disk states. -/
theorem diskCache_get_absence_witness :
    DiskCache.GetCache dcA fsEmpty keyA = .ok (none, cacheInfo.zero) ∧
    DiskCache.GetCache dcA fsDataOnly keyA = .ok (none, cacheInfo.zero) ∧
    DiskCache.GetCache dcA fsCorruptInfo keyA = .error CacheLoadError.decode :=
  ⟨(diskCache_get_absence dcA fsEmpty keyA (by decide)).1 rfl,
    (diskCache_get_absence dcA fsDataOnly keyA (by decide)).2.1 5 (by decide)
      (by decide),
    (diskCache_get_absence dcA fsCorruptInfo keyA (by decide)).2.2.1 5 (by decide)
      (by decide)⟩

/-- A filesystem whose two cache files for `keyA` sit at the
directory-less paths (i.e. relative to the working directory). -/
def fsCwd : Fs Nat :=
  { files := [((getCacheFileNames keyA).1, FileEntry.dataJson 5),
      ((getCacheFileNames keyA).2, FileEntry.infoJson infoBoundary)],
    mkdirFails := false, failingWrites := [] }

/-- C7: with an empty cache directory, `GetCache` reports absent and
`SetCache` writes nothing, but `ClearCache` is **not** a filesystem
no-op: it removes the two cache file names resolved relative to the
current working directory (the empty-directory guard present in the other
two operations is missing). -/
theorem diskCache_disabled_clear_touches_files :
    DiskCache.GetCache dcEmpty fsCwd keyA = .ok (none, cacheInfo.zero) ∧
    DiskCache.SetCache dcEmpty fsCwd keyA (some 9) infoBoundary = (fsCwd, none) ∧
    DiskCache.ClearCache dcEmpty fsCwd keyA
      = (({ files := [], mkdirFails := false, failingWrites := [] } : Fs Nat),
        none) ∧
    fsCwd.files ≠ [] := by
  refine ⟨by decide, by decide, by decide, by decide⟩

theorem aremove_comm {α : Type} (l : List (String × α)) (a b : String) :
    aremove (aremove l a) b = aremove (aremove l b) a := by
  induction l with
  | nil => rfl
  | cons p rest ih =>
    by_cases ha : p.1 = a
    · by_cases hb : p.1 = b
      · have hab : a = b := by rw [← ha, hb]
        subst hab
        rfl
      · simp only [aremove, if_pos ha, if_neg hb]
        exact ih
    · by_cases hb : p.1 = b
      · simp only [aremove, if_neg ha, if_pos hb]
        exact ih
      · simp only [aremove, if_neg ha, if_neg hb]
        rw [ih]

theorem aremove_pair_idem {α : Type} (l : List (String × α)) (a b : String) :
    aremove (aremove (aremove (aremove l a) b) a) b = aremove (aremove l a) b := by
  have h1 : aremove (aremove (aremove l a) b) a = aremove (aremove l a) b := by
    rw [aremove_comm, aremove_idem]
  rw [h1, aremove_idem]

/-- C8: clearing a key that holds no entry succeeds with a nil error and
leaves both the memory tier's maps and the disk tier's filesystem
unchanged, and for any state a second clear after a first one succeeds
with no further state change. -/
theorem clearCache_idempotent {T : Type} (mo : List (String × Option T))
    (mi : List (String × cacheInfo)) (k : String) (dc : DiskCache) (fs : Fs T)
    (hmo : alookup mo k = none) (hmi : alookup mi k = none)
    (hfd : alookup fs.files
      (joinPath dc.CacheDirectory (dc.getCacheFileNames k).1) = none)
    (hfi : alookup fs.files
      (joinPath dc.CacheDirectory (dc.getCacheFileNames k).2) = none) :
    MemoryCache.ClearCache
        ({ CacheObject := some mo, CacheInfoObject := some mi } : MemoryCache T) k
      = (({ CacheObject := some mo, CacheInfoObject := some mi } : MemoryCache T),
        none) ∧
    DiskCache.ClearCache dc fs k = (fs, none) ∧
    (∀ (m : MemoryCache T) (k2 : String),
      MemoryCache.ClearCache (MemoryCache.ClearCache m k2).1 k2
        = ((MemoryCache.ClearCache m k2).1, none)) ∧
    (∀ (fs2 : Fs T) (k2 : String),
      DiskCache.ClearCache dc (DiskCache.ClearCache dc fs2 k2).1 k2
        = ((DiskCache.ClearCache dc fs2 k2).1, none)) := by
  refine ⟨?_, ?_, ?_, ?_⟩
  · simp [MemoryCache.ClearCache, MemoryCache.makeSureMapIsSetup, mapDelete,
      aremove_of_alookup_none _ _ hmo, aremove_of_alookup_none _ _ hmi]
  · simp [DiskCache.ClearCache, removeFile, aremove_of_alookup_none _ _ hfd,
      aremove_of_alookup_none _ _ hfi]
  · intro m k2
    simp [MemoryCache.ClearCache, MemoryCache.makeSureMapIsSetup, mapDelete,
      aremove_idem]
  · intro fs2 k2
    simp [DiskCache.ClearCache, removeFile, aremove_pair_idem]

/-- Witness for C8: clearing the absent `keyA` in concrete empty tiers is
a no-op success, and concrete double clears are idempotent (including on
a zero-value memory cache with nil maps). -/
theorem clearCache_idempotent_witness :
    MemoryCache.ClearCache
        ({ CacheObject := some [], CacheInfoObject := some [] } : MemoryCache Nat)
        keyA
      = (({ CacheObject := some [], CacheInfoObject := some [] } :
          MemoryCache Nat), none) ∧
    DiskCache.ClearCache dcA fsEmpty keyA = (fsEmpty, none) ∧
    MemoryCache.ClearCache
        (MemoryCache.ClearCache
          ({ CacheObject := none, CacheInfoObject := none } : MemoryCache Nat)
          keyA).1 keyA
      = ((MemoryCache.ClearCache
          ({ CacheObject := none, CacheInfoObject := none } : MemoryCache Nat)
          keyA).1, none) ∧
    DiskCache.ClearCache dcA (DiskCache.ClearCache dcA fsCwd keyA).1 keyA
      = ((DiskCache.ClearCache dcA fsCwd keyA).1, none) :=
  ⟨(clearCache_idempotent [] [] keyA dcA fsEmpty rfl rfl rfl rfl).1,
    (clearCache_idempotent ([] : List (String × Option Nat)) [] keyA dcA fsEmpty
      rfl rfl rfl rfl).2.1,
    (clearCache_idempotent ([] : List (String × Option Nat)) [] keyA dcA fsEmpty
      rfl rfl rfl rfl).2.2.1
      { CacheObject := none, CacheInfoObject := none } keyA,
    (clearCache_idempotent ([] : List (String × Option Nat)) [] keyA dcA fsEmpty
      rfl rfl rfl rfl).2.2.2 fsCwd keyA⟩

/-- C9: every memory-tier operation is total and infallible, even on a
zero-value `MemoryCache` with nil maps (the eager map initialization makes
the otherwise-panicking map assignment unreachable), and a get on an
absent key yields a nil entry and zero metadata with a nil error. -/
theorem memoryCache_total_infallible {T : Type} (m : MemoryCache T) (k : String)
    (v : Option T) (i : cacheInfo)
    (habs : mapLookup m.CacheObject k = none)
    (habsi : mapLookup m.CacheInfoObject k = none) :
    (m.GetCache k).1.2.2 = none ∧
    (m.SetCache k v i
      = .ok (({ CacheObject := some (ainsert (m.CacheObject.getD []) k v),
                CacheInfoObject :=
                  some (ainsert (m.CacheInfoObject.getD []) k i) } :
              MemoryCache T), none)) ∧
    (m.ClearCache k).2 = none ∧
    (m.GetCache k).1.1 = none ∧
    (m.GetCache k).1.2.1 = cacheInfo.zero := by
  refine ⟨rfl, rfl, rfl, ?_, ?_⟩
  · cases hmo : m.CacheObject with
    | none =>
      simp [MemoryCache.GetCache, MemoryCache.makeSureMapIsSetup, mapLookup,
        hmo, alookup]
    | some l =>
      rw [hmo] at habs
      simp only [mapLookup] at habs
      simp [MemoryCache.GetCache, MemoryCache.makeSureMapIsSetup, mapLookup,
        hmo, habs]
  · cases hmi : m.CacheInfoObject with
    | none =>
      simp [MemoryCache.GetCache, MemoryCache.makeSureMapIsSetup, mapLookup,
        hmi, alookup]
    | some l =>
      rw [hmi] at habsi
      simp only [mapLookup] at habsi
      simp [MemoryCache.GetCache, MemoryCache.makeSureMapIsSetup, mapLookup,
        hmi, habsi]

/-- Witness for C9 on a zero-value memory cache (nil maps) at a concrete
key. -/
theorem memoryCache_total_infallible_witness :
    ((({ CacheObject := none, CacheInfoObject := none } : MemoryCache Nat)
      ).GetCache keyA).1.2.2 = none ∧
    (({ CacheObject := none, CacheInfoObject := none } : MemoryCache Nat)
      ).SetCache keyA (some 4) infoBoundary
      = .ok (({ CacheObject := some (ainsert [] keyA (some 4)),
                CacheInfoObject := some (ainsert [] keyA infoBoundary) } :
              MemoryCache Nat), none) ∧
    ((({ CacheObject := none, CacheInfoObject := none } : MemoryCache Nat)
      ).ClearCache keyA).2 = none ∧
    ((({ CacheObject := none, CacheInfoObject := none } : MemoryCache Nat)
      ).GetCache keyA).1.1 = none ∧
    ((({ CacheObject := none, CacheInfoObject := none } : MemoryCache Nat)
      ).GetCache keyA).1.2.1 = cacheInfo.zero :=
  memoryCache_total_infallible
    { CacheObject := none, CacheInfoObject := none } keyA (some 4) infoBoundary
    rfl rfl
